import Mathlib

/-!
Shallow embedding of the cross-origin session-fork protocol of the
WebClients repository (`requestFork`, `consumeFork`,
`getConsumeForkParameters` from the pass fork module) and of the
encrypted local-cache saga (`cacheWorker`).

External collaborators (API client, crypto helpers, random source,
browser storage) are modelled as explicit function-valued environment
records; asynchronous sequencing becomes explicit `Except` plumbing plus
an event trace recording, in order, every collaborator invocation that a
claim talks about.
-/

namespace SessionFork

/-! ## Data model -/

/-- Response of the pull-fork API endpoint (`PullForkResponse`). -/
structure PullForkResponse where
  UID : String
  RefreshToken : String
  LocalID : Nat
  Payload : String
deriving DecidableEq, Repr

/-- Response of the refresh-session API endpoint (`RefreshSessionResponse`). -/
structure RefreshSessionResponse where
  AccessToken : String
  RefreshToken : String
deriving DecidableEq, Repr

/-- The part of the fetched `User` record that `consumeFork` reads. -/
structure UserRecord where
  ID : String
deriving DecidableEq, Repr

/-- The decrypted fork blob: an object that may or may not carry a
`keyPassword` field (`{ keyPassword?: string }`). -/
structure ForkBlob where
  keyPassword : Option String
deriving DecidableEq, Repr

/-- The `AuthSession` record returned by `consumeFork`. -/
structure AuthSession where
  AccessToken : String
  keyPassword : String
  LocalID : Nat
  RefreshToken : String
  UID : String
  UserID : String
deriving DecidableEq, Repr

/-- `ConsumeForkPayload`: tagged union over the two delivery modes.
`localState : Option String` models `MaybeNull<string>` (with `none` for
`null`), `key : Option (List Nat)` models the optional `Uint8Array`. -/
inductive ConsumeForkPayload where
  | sso (localState : Option String) (state : String) (selector : String)
        (key : Option (List Nat)) (version : Nat)
  | secure (state : String) (selector : String) (keyPassword : String)
deriving DecidableEq, Repr

namespace ConsumeForkPayload

/-- `payload.selector`. -/
def selector : ConsumeForkPayload → String
  | .sso _ _ s _ _ => s
  | .secure _ s _ => s

/-- `payload.state`. -/
def state : ConsumeForkPayload → String
  | .sso _ st _ _ _ => st
  | .secure st _ _ => st

/-- Whether `payload.mode === 'sso'`. -/
def isSso : ConsumeForkPayload → Bool
  | .sso _ _ _ _ _ => true
  | .secure _ _ _ => false

end ConsumeForkPayload

/-- Errors observable from `consumeFork`, over an abstract type `ε` of
collaborator (network / crypto) errors.  `invalidForkConsume` models
`InvalidForkConsumeError`; `external` models any error thrown by a
collaborator and propagated as-is.  `absentKeyAssertion` is the explicit
marker for the non-null assertion `payload.key!` being evaluated on an
absent key (unreachable behind the validation gate). -/
inductive ForkError (ε : Type) where
  | invalidForkConsume (message : String)
  | absentKeyAssertion
  | external (e : ε)
deriving DecidableEq, Repr

/-- Trace entry: one collaborator invocation made by `consumeFork`. -/
inductive ForkEvent where
  | pullFork (url : String)
  | refreshCall (uid : String) (refreshToken : String)
  | getUserCall (uid : String) (accessToken : String)
  | getKeyCall (rawKey : List Nat)
  | decryptCall (blob : String) (version : Nat)
deriving DecidableEq, Repr

/-- Whether the event belongs to the key-derivation / decryption path. -/
def ForkEvent.isCryptoCall : ForkEvent → Bool
  | .getKeyCall _ => true
  | .decryptCall _ _ => true
  | _ => false

/-- Collaborators of `consumeFork`: the `api` client (one entry per
endpoint, headers as explicit arguments) and the crypto helpers `getKey`
and `getForkDecryptedBlob`; `κ` is the abstract `CryptoKey` type. -/
structure ConsumeForkEnv (ε κ : Type) where
  pullFork : String → Except ε PullForkResponse
  refreshTokens : String → String → Except ε RefreshSessionResponse
  getUser : String → String → Except ε UserRecord
  getKey : List Nat → Except ε κ
  getForkDecryptedBlob : κ → String → Nat → Except ε (Option ForkBlob)

/-- `ConsumeForkOptions` minus the `api` client (passed separately as the
environment). -/
structure ConsumeForkOptions where
  apiUrl : Option String
  payload : ConsumeForkPayload
deriving DecidableEq, Repr

/-- Modelled from the spec: the pull-fork endpoint path built by the
external `pullForkSession(selector)` helper (exact path not shown in the
sources; only its composition with `apiUrl` matters here). -/
def pullForkSessionUrl (selector : String) : String :=
  "auth/v4/sessions/forks/" ++ selector

/-- `pullForkParams.url = apiUrl ? apiUrl + "/" + url : url`; note that a
JS empty-string `apiUrl` is falsy. -/
def forkPullUrl (apiUrl : Option String) (selector : String) : String :=
  match apiUrl with
  | some u => if u ≠ "" then u ++ "/" ++ pullForkSessionUrl selector else pullForkSessionUrl selector
  | none => pullForkSessionUrl selector

/-- The validation gate of `consumeFork`:
`(payload.mode === 'secure' || (payload.localState !== null && payload.key))
 && payload.selector && payload.state`
(JS truthiness: empty strings are falsy, any object — even an empty
byte array — is truthy). -/
def validFork (payload : ConsumeForkPayload) : Bool :=
  (match payload with
   | .secure _ _ _ => true
   | .sso localState _ _ key _ => localState.isSome && key.isSome)
  && !(payload.selector == "") && !(payload.state == "")

/-- The key-password resolution step of `consumeFork` (the conditional
expression computing `keyPassword`): in secure mode the caller-supplied
value; otherwise derive a key from `payload.key!` and decrypt the pulled
`Payload` blob, converting any thrown error into
`InvalidForkConsumeError('Failed to decrypt fork payload')`.  Returns the
result together with the trace of crypto-collaborator invocations. -/
def resolveKeyPassword (env : ConsumeForkEnv ε κ) (payload : ConsumeForkPayload)
    (blob : String) : Except (ForkError ε) String × List ForkEvent :=
  match payload with
  | .secure _ _ keyPassword => (.ok keyPassword, [])
  | .sso _ _ _ none _ => (.error .absentKeyAssertion, [])
  | .sso _ _ _ (some rawKey) version =>
    match env.getKey rawKey with
    | .error _ => (.error (.invalidForkConsume "Failed to decrypt fork payload"),
                   [.getKeyCall rawKey])
    | .ok key =>
      match env.getForkDecryptedBlob key blob version with
      | .error _ => (.error (.invalidForkConsume "Failed to decrypt fork payload"),
                     [.getKeyCall rawKey, .decryptCall blob version])
      | .ok decrypted =>
        (.ok ((decrypted.bind ForkBlob.keyPassword).getD ""),
         [.getKeyCall rawKey, .decryptCall blob version])

/-- `consumeFork`: validation gate, then the sequential pull-fork /
refresh / get-user round-trips, then key-password resolution, then the
assembled `AuthSession`.  The second component is the ordered trace of
collaborator invocations actually performed. -/
def consumeFork (env : ConsumeForkEnv ε κ) (options : ConsumeForkOptions) :
    Except (ForkError ε) AuthSession × List ForkEvent :=
  let payload := options.payload
  if validFork payload then
    let url := forkPullUrl options.apiUrl payload.selector
    match env.pullFork url with
    | .error e => (.error (.external e), [.pullFork url])
    | .ok pull =>
      match env.refreshTokens pull.UID pull.RefreshToken with
      | .error e => (.error (.external e),
                     [.pullFork url, .refreshCall pull.UID pull.RefreshToken])
      | .ok refresh =>
        match env.getUser pull.UID refresh.AccessToken with
        | .error e => (.error (.external e),
                       [.pullFork url, .refreshCall pull.UID pull.RefreshToken,
                        .getUserCall pull.UID refresh.AccessToken])
        | .ok user =>
          let netTrace : List ForkEvent :=
            [.pullFork url, .refreshCall pull.UID pull.RefreshToken,
             .getUserCall pull.UID refresh.AccessToken]
          match resolveKeyPassword env payload pull.Payload with
          | (.error err, t) => (.error err, netTrace ++ t)
          | (.ok keyPassword, t) =>
            (.ok { AccessToken := refresh.AccessToken
                   keyPassword := keyPassword
                   LocalID := pull.LocalID
                   RefreshToken := refresh.RefreshToken
                   UID := pull.UID
                   UserID := user.ID }, netTrace ++ t)
  else (.error (.invalidForkConsume "Invalid fork state"), [])

/-! ## Gate lemmas -/

/-- The condition under which the validation gate fails, spelled the way
the specification states it (for comparison with the source-derived
`validFork`). -/
def specGateFails (payload : ConsumeForkPayload) : Prop :=
  payload.selector = "" ∨ payload.state = "" ∨
    (match payload with
     | .sso localState _ _ key _ => localState = none ∨ key = none
     | .secure _ _ _ => False)

theorem validFork_false_iff (payload : ConsumeForkPayload) :
    validFork payload = false ↔ specGateFails payload := by
  cases payload with
  | sso localState st sel key v =>
    cases localState <;> cases key <;>
      simp [validFork, specGateFails, ConsumeForkPayload.selector,
        ConsumeForkPayload.state, or_comm, or_assoc, beq_iff_eq] <;>
      tauto
  | secure st sel kp =>
    simp [validFork, specGateFails, ConsumeForkPayload.selector,
      ConsumeForkPayload.state, beq_iff_eq] <;> tauto

theorem consumeFork_of_invalid {ε κ : Type} (env : ConsumeForkEnv ε κ)
    (options : ConsumeForkOptions) (h : validFork options.payload = false) :
    consumeFork env options =
      (.error (.invalidForkConsume "Invalid fork state"), []) := by
  simp [consumeFork, h]

theorem consumeFork_pull_error {ε κ : Type} {env : ConsumeForkEnv ε κ}
    {options : ConsumeForkOptions} {e : ε}
    (h : validFork options.payload = true)
    (hp : env.pullFork (forkPullUrl options.apiUrl options.payload.selector) =
      .error e) :
    consumeFork env options = (.error (.external e),
      [.pullFork (forkPullUrl options.apiUrl options.payload.selector)]) := by
  simp [consumeFork, h, hp]

theorem consumeFork_refresh_error {ε κ : Type} {env : ConsumeForkEnv ε κ}
    {options : ConsumeForkOptions} {pull : PullForkResponse} {e : ε}
    (h : validFork options.payload = true)
    (hp : env.pullFork (forkPullUrl options.apiUrl options.payload.selector) =
      .ok pull)
    (hr : env.refreshTokens pull.UID pull.RefreshToken = .error e) :
    consumeFork env options = (.error (.external e),
      [.pullFork (forkPullUrl options.apiUrl options.payload.selector),
       .refreshCall pull.UID pull.RefreshToken]) := by
  simp [consumeFork, h, hp, hr]

theorem consumeFork_getUser_error {ε κ : Type} {env : ConsumeForkEnv ε κ}
    {options : ConsumeForkOptions} {pull : PullForkResponse}
    {refresh : RefreshSessionResponse} {e : ε}
    (h : validFork options.payload = true)
    (hp : env.pullFork (forkPullUrl options.apiUrl options.payload.selector) =
      .ok pull)
    (hr : env.refreshTokens pull.UID pull.RefreshToken = .ok refresh)
    (hu : env.getUser pull.UID refresh.AccessToken = .error e) :
    consumeFork env options = (.error (.external e),
      [.pullFork (forkPullUrl options.apiUrl options.payload.selector),
       .refreshCall pull.UID pull.RefreshToken,
       .getUserCall pull.UID refresh.AccessToken]) := by
  simp [consumeFork, h, hp, hr, hu]

/-- Assembles the `AuthSession` from the three network responses and the
resolved key password. -/
def finishSession (pull : PullForkResponse) (refresh : RefreshSessionResponse)
    (user : UserRecord) (keyPassword : String) : AuthSession :=
  { AccessToken := refresh.AccessToken
    keyPassword := keyPassword
    LocalID := pull.LocalID
    RefreshToken := refresh.RefreshToken
    UID := pull.UID
    UserID := user.ID }

theorem consumeFork_net_ok {ε κ : Type} {env : ConsumeForkEnv ε κ}
    {options : ConsumeForkOptions} {pull : PullForkResponse}
    {refresh : RefreshSessionResponse} {user : UserRecord}
    (h : validFork options.payload = true)
    (hp : env.pullFork (forkPullUrl options.apiUrl options.payload.selector) =
      .ok pull)
    (hr : env.refreshTokens pull.UID pull.RefreshToken = .ok refresh)
    (hu : env.getUser pull.UID refresh.AccessToken = .ok user) :
    consumeFork env options =
      ((resolveKeyPassword env options.payload pull.Payload).1.map
          (finishSession pull refresh user),
       [.pullFork (forkPullUrl options.apiUrl options.payload.selector),
        .refreshCall pull.UID pull.RefreshToken,
        .getUserCall pull.UID refresh.AccessToken] ++
         (resolveKeyPassword env options.payload pull.Payload).2) := by
  rcases hk : resolveKeyPassword env options.payload pull.Payload with ⟨r, t⟩
  cases r <;> simp [consumeFork, h, hp, hr, hu, hk, finishSession, Except.map]

theorem consumeFork_trace_ne_nil_of_valid {ε κ : Type} (env : ConsumeForkEnv ε κ)
    (options : ConsumeForkOptions) (h : validFork options.payload = true) :
    (consumeFork env options).2 ≠ [] := by
  cases hp : env.pullFork (forkPullUrl options.apiUrl options.payload.selector) with
  | error e => simp [consumeFork_pull_error h hp]
  | ok pull =>
    cases hr : env.refreshTokens pull.UID pull.RefreshToken with
    | error e => simp [consumeFork_refresh_error h hp hr]
    | ok refresh =>
      cases hu : env.getUser pull.UID refresh.AccessToken with
      | error e => simp [consumeFork_getUser_error h hp hr hu]
      | ok user => simp [consumeFork_net_ok h hp hr hu]

/-- C1: `consumeFork` fails with `InvalidForkConsumeError('Invalid fork
state')` before issuing any collaborator call exactly when the payload
fails the validation gate (empty selector, empty state, or sso mode with
null localState or absent key); in particular every sso payload with
null localState fails regardless of all other fields. -/
theorem consumeFork_validation_gate {ε κ : Type} (env : ConsumeForkEnv ε κ)
    (options : ConsumeForkOptions) :
    (consumeFork env options =
        (.error (.invalidForkConsume "Invalid fork state"), []) ↔
      specGateFails options.payload)
    ∧ (∀ (st sel : String) (key : Option (List Nat)) (v : Nat)
         (apiUrl : Option String),
        consumeFork env { apiUrl := apiUrl, payload := .sso none st sel key v } =
          (.error (.invalidForkConsume "Invalid fork state"), [])) := by
  constructor
  · constructor
    · intro h
      rw [← validFork_false_iff]
      by_contra hv
      have hv' : validFork options.payload = true := by
        cases hvf : validFork options.payload
        · exact absurd hvf hv
        · rfl
      have := consumeFork_trace_ne_nil_of_valid env options hv'
      rw [h] at this
      exact this rfl
    · intro h
      exact consumeFork_of_invalid env options ((validFork_false_iff _).mpr h)
  · intro st sel key v apiUrl
    apply consumeFork_of_invalid
    cases key <;> simp [validFork]

/-- C9: behind the validation gate, an sso payload always carries a
present `key`, so the non-null assertion `payload.key!` in the
decryption branch never evaluates an absent key: the explicit
absent-key marker is unreachable from `consumeFork`. -/
theorem consumeFork_key_assertion_safe {ε κ : Type} (env : ConsumeForkEnv ε κ)
    (options : ConsumeForkOptions) :
    (∀ (localState : Option String) (st sel : String)
       (key : Option (List Nat)) (v : Nat),
        options.payload = .sso localState st sel key v →
        validFork options.payload = true → key.isSome = true)
    ∧ (consumeFork env options).1 ≠ .error .absentKeyAssertion := by
  constructor
  · intro localState st sel key v hp hv
    rw [hp] at hv
    cases localState <;> cases key <;> simp_all [validFork]
  · cases hv : validFork options.payload with
    | false => simp [consumeFork_of_invalid env options hv]
    | true =>
      have hkey : ∀ blob,
          (resolveKeyPassword env options.payload blob).1 ≠
            .error .absentKeyAssertion := by
        intro blob
        cases hp : options.payload with
        | secure st sel kp => simp [resolveKeyPassword]
        | sso localState st sel key v =>
          cases key with
          | none => rw [hp] at hv; cases localState <;> simp [validFork] at hv
          | some rawKey =>
            simp only [resolveKeyPassword]
            cases hgk : env.getKey rawKey with
            | error e => simp [hgk]
            | ok ck =>
              cases hdb : env.getForkDecryptedBlob ck blob v <;> simp [hgk, hdb]
      cases hpl : env.pullFork (forkPullUrl options.apiUrl options.payload.selector) with
      | error e => simp [consumeFork_pull_error hv hpl]
      | ok pull =>
        cases hr : env.refreshTokens pull.UID pull.RefreshToken with
        | error e => simp [consumeFork_refresh_error hv hpl hr]
        | ok refresh =>
          cases hu : env.getUser pull.UID refresh.AccessToken with
          | error e => simp [consumeFork_getUser_error hv hpl hr hu]
          | ok user =>
            rw [consumeFork_net_ok hv hpl hr hu]
            have := hkey pull.Payload
            cases hk : (resolveKeyPassword env options.payload pull.Payload).1 with
            | error err =>
              rw [hk] at this
              cases err with
              | invalidForkConsume m => simp [Except.map]
              | absentKeyAssertion => exact absurd rfl this
              | external e => simp [Except.map]
            | ok kp => simp [Except.map]

/-- C2: for every sso payload passing the gate, once the three network
calls succeed, any error thrown by key derivation (`getKey`) or blob
decryption (`getForkDecryptedBlob`) surfaces as exactly
`InvalidForkConsumeError('Failed to decrypt fork payload')`; the
underlying collaborator error is never propagated. -/
theorem consumeFork_decrypt_error_normalized {ε κ : Type}
    (env : ConsumeForkEnv ε κ) (apiUrl : Option String)
    (localState : Option String) (st sel : String) (rawKey : List Nat) (v : Nat)
    (pull : PullForkResponse) (refresh : RefreshSessionResponse)
    (user : UserRecord)
    (hv : validFork (.sso localState st sel (some rawKey) v) = true)
    (hp : env.pullFork (forkPullUrl apiUrl sel) = .ok pull)
    (hr : env.refreshTokens pull.UID pull.RefreshToken = .ok refresh)
    (hu : env.getUser pull.UID refresh.AccessToken = .ok user)
    (hfail : (∃ e, env.getKey rawKey = .error e) ∨
      (∃ ck e, env.getKey rawKey = .ok ck ∧
        env.getForkDecryptedBlob ck pull.Payload v = .error e)) :
    (consumeFork env
        { apiUrl := apiUrl, payload := .sso localState st sel (some rawKey) v }).1 =
      .error (.invalidForkConsume "Failed to decrypt fork payload") := by
  rw [consumeFork_net_ok hv hp hr hu]
  rcases hfail with ⟨e, he⟩ | ⟨ck, e, hck, he⟩
  · simp [resolveKeyPassword, he, Except.map]
  · simp [resolveKeyPassword, hck, he, Except.map]

/-- C3: behind the gate, the protocol is a strictly sequential chain:
pull-fork, then refresh (fed the UID and RefreshToken of the pull-fork
response), then get-user (fed the UID and the fresh AccessToken), then
key-password resolution; a failing network call aborts the chain right
there and its error propagates un-wrapped (as `external`), while the
resolution step never produces an `external` error (only the decryption
step is wrapped), and success requires every step to complete. -/
theorem consumeFork_sequential_chain {ε κ : Type} (env : ConsumeForkEnv ε κ)
    (options : ConsumeForkOptions)
    (hv : validFork options.payload = true) :
    (∀ e, env.pullFork (forkPullUrl options.apiUrl options.payload.selector) =
        .error e →
      consumeFork env options = (.error (.external e),
        [.pullFork (forkPullUrl options.apiUrl options.payload.selector)]))
    ∧ (∀ pull e,
        env.pullFork (forkPullUrl options.apiUrl options.payload.selector) =
          .ok pull →
        env.refreshTokens pull.UID pull.RefreshToken = .error e →
        consumeFork env options = (.error (.external e),
          [.pullFork (forkPullUrl options.apiUrl options.payload.selector),
           .refreshCall pull.UID pull.RefreshToken]))
    ∧ (∀ pull refresh e,
        env.pullFork (forkPullUrl options.apiUrl options.payload.selector) =
          .ok pull →
        env.refreshTokens pull.UID pull.RefreshToken = .ok refresh →
        env.getUser pull.UID refresh.AccessToken = .error e →
        consumeFork env options = (.error (.external e),
          [.pullFork (forkPullUrl options.apiUrl options.payload.selector),
           .refreshCall pull.UID pull.RefreshToken,
           .getUserCall pull.UID refresh.AccessToken]))
    ∧ (∀ pull refresh user,
        env.pullFork (forkPullUrl options.apiUrl options.payload.selector) =
          .ok pull →
        env.refreshTokens pull.UID pull.RefreshToken = .ok refresh →
        env.getUser pull.UID refresh.AccessToken = .ok user →
        consumeFork env options =
          ((resolveKeyPassword env options.payload pull.Payload).1.map
              (finishSession pull refresh user),
           [.pullFork (forkPullUrl options.apiUrl options.payload.selector),
            .refreshCall pull.UID pull.RefreshToken,
            .getUserCall pull.UID refresh.AccessToken] ++
             (resolveKeyPassword env options.payload pull.Payload).2)
          ∧ ∀ e, (resolveKeyPassword env options.payload pull.Payload).1 ≠
              .error (.external e)) := by
  refine ⟨fun e he => consumeFork_pull_error hv he,
    fun pull e hp hr => consumeFork_refresh_error hv hp hr,
    fun pull refresh e hp hr hu => consumeFork_getUser_error hv hp hr hu,
    fun pull refresh user hp hr hu =>
      ⟨consumeFork_net_ok hv hp hr hu, ?_⟩⟩
  intro e
  cases hpay : options.payload with
  | secure a b c => simp [resolveKeyPassword]
  | sso localState a b key w =>
    cases key with
    | none => simp [resolveKeyPassword]
    | some rawKey =>
      simp only [resolveKeyPassword]
      cases hgk : env.getKey rawKey with
      | error e2 => simp [hgk]
      | ok ck =>
        cases hdb : env.getForkDecryptedBlob ck pull.Payload w <;> simp [hgk, hdb]

/-- C4: on a fully successful run the `AuthSession` fields come exactly
from: `AccessToken`/`RefreshToken` from the refresh response, `UID` and
`LocalID` from the pull-fork response, `UserID` from the fetched user
record, and `keyPassword` from the resolved key password. -/
theorem consumeFork_success_fields {ε κ : Type} (env : ConsumeForkEnv ε κ)
    (options : ConsumeForkOptions) (pull : PullForkResponse)
    (refresh : RefreshSessionResponse) (user : UserRecord) (kp : String)
    (t : List ForkEvent)
    (hv : validFork options.payload = true)
    (hp : env.pullFork (forkPullUrl options.apiUrl options.payload.selector) =
      .ok pull)
    (hr : env.refreshTokens pull.UID pull.RefreshToken = .ok refresh)
    (hu : env.getUser pull.UID refresh.AccessToken = .ok user)
    (hk : resolveKeyPassword env options.payload pull.Payload = (.ok kp, t)) :
    (consumeFork env options).1 = .ok
      { AccessToken := refresh.AccessToken
        keyPassword := kp
        LocalID := pull.LocalID
        RefreshToken := refresh.RefreshToken
        UID := pull.UID
        UserID := user.ID } := by
  rw [consumeFork_net_ok hv hp hr hu, hk]
  simp [Except.map, finishSession]

/-- C5: in secure mode with non-empty selector and state the
key-derivation / decryption collaborators are never invoked, and when the
network calls succeed the returned `keyPassword` is exactly the
caller-supplied one. -/
theorem consumeFork_secure_no_decrypt {ε κ : Type} (env : ConsumeForkEnv ε κ)
    (apiUrl : Option String) (st sel kp : String)
    (hsel : sel ≠ "") (hst : st ≠ "") :
    (∀ ev ∈ (consumeFork env { apiUrl := apiUrl, payload := .secure st sel kp }).2,
      ev.isCryptoCall = false)
    ∧ (∀ pull refresh user,
        env.pullFork (forkPullUrl apiUrl sel) = .ok pull →
        env.refreshTokens pull.UID pull.RefreshToken = .ok refresh →
        env.getUser pull.UID refresh.AccessToken = .ok user →
        (consumeFork env { apiUrl := apiUrl, payload := .secure st sel kp }).1 =
          .ok { AccessToken := refresh.AccessToken
                keyPassword := kp
                LocalID := pull.LocalID
                RefreshToken := refresh.RefreshToken
                UID := pull.UID
                UserID := user.ID }) := by
  have hv : validFork (.secure st sel kp) = true := by
    simp [validFork, ConsumeForkPayload.selector, ConsumeForkPayload.state,
      beq_iff_eq, hsel, hst]
  constructor
  · cases hp : env.pullFork (forkPullUrl apiUrl sel) with
    | error e =>
      rw [consumeFork_pull_error hv hp]
      simp [List.forall_mem_cons, ForkEvent.isCryptoCall]
    | ok pull =>
      cases hr : env.refreshTokens pull.UID pull.RefreshToken with
      | error e =>
        rw [consumeFork_refresh_error hv hp hr]
        simp [List.forall_mem_cons, ForkEvent.isCryptoCall]
      | ok refresh =>
        cases hu : env.getUser pull.UID refresh.AccessToken with
        | error e =>
          rw [consumeFork_getUser_error hv hp hr hu]
          simp [List.forall_mem_cons, ForkEvent.isCryptoCall]
        | ok user =>
          rw [consumeFork_net_ok hv hp hr hu]
          simp [resolveKeyPassword, List.forall_mem_cons, ForkEvent.isCryptoCall]
  · intro pull refresh user hp hr hu
    exact consumeFork_success_fields env _ pull refresh user kp []
      hv hp hr hu (by simp [resolveKeyPassword])

/-! ## Concrete sample collaborators (used by the closed witnesses) -/

/-- A fully successful collaborator environment realizing the
end-to-end scenario of the specification. -/
def sampleEnv : ConsumeForkEnv String Nat where
  pullFork := fun _ => .ok { UID := "u1", RefreshToken := "r1", LocalID := 3, Payload := "enc..." }
  refreshTokens := fun _ _ => .ok { AccessToken := "a2", RefreshToken := "r2" }
  getUser := fun _ _ => .ok { ID := "user-9" }
  getKey := fun _ => .ok 7
  getForkDecryptedBlob := fun _ _ _ => .ok (some { keyPassword := some "pw" })

/-- Same as `sampleEnv` but key derivation throws. -/
def decryptFailEnv : ConsumeForkEnv String Nat :=
  { sampleEnv with getKey := fun _ => .error "crypto-exploded" }

/-- Same as `sampleEnv` but the refresh network call fails. -/
def refreshFailEnv : ConsumeForkEnv String Nat :=
  { sampleEnv with refreshTokens := fun _ _ => .error "refresh-down" }

/-- A concrete sso-mode payload passing the validation gate. -/
def ssoOpts : ConsumeForkOptions :=
  { apiUrl := none, payload := .sso (some "ls") "st" "sel" (some [1, 2]) 1 }

theorem consumeFork_validation_gate_witness :
    consumeFork sampleEnv
        { apiUrl := none, payload := .sso none "st" "sel" (some [1]) 1 } =
      (.error (.invalidForkConsume "Invalid fork state"), []) :=
  (consumeFork_validation_gate sampleEnv ssoOpts).2 "st" "sel" (some [1]) 1 none

theorem consumeFork_key_assertion_safe_witness :
    (some [1, 2] : Option (List Nat)).isSome = true ∧
      (consumeFork sampleEnv ssoOpts).1 ≠ .error .absentKeyAssertion :=
  ⟨(consumeFork_key_assertion_safe sampleEnv ssoOpts).1 (some "ls") "st" "sel"
      (some [1, 2]) 1 rfl (by decide),
    (consumeFork_key_assertion_safe sampleEnv ssoOpts).2⟩

theorem consumeFork_decrypt_error_normalized_witness :
    (consumeFork decryptFailEnv ssoOpts).1 =
      .error (.invalidForkConsume "Failed to decrypt fork payload") :=
  consumeFork_decrypt_error_normalized decryptFailEnv none (some "ls") "st" "sel"
    [1, 2] 1 { UID := "u1", RefreshToken := "r1", LocalID := 3, Payload := "enc..." }
    { AccessToken := "a2", RefreshToken := "r2" } { ID := "user-9" }
    (by decide) rfl rfl rfl (.inl ⟨"crypto-exploded", rfl⟩)

theorem consumeFork_sequential_chain_witness :
    consumeFork refreshFailEnv ssoOpts =
      (.error (.external "refresh-down"),
       [.pullFork (forkPullUrl none "sel"), .refreshCall "u1" "r1"]) :=
  (consumeFork_sequential_chain refreshFailEnv ssoOpts (by decide)).2.1
    { UID := "u1", RefreshToken := "r1", LocalID := 3, Payload := "enc..." }
    "refresh-down" rfl rfl

theorem consumeFork_success_fields_witness :
    (consumeFork sampleEnv ssoOpts).1 = .ok
      { AccessToken := "a2", keyPassword := "pw", LocalID := 3,
        RefreshToken := "r2", UID := "u1", UserID := "user-9" } :=
  consumeFork_success_fields sampleEnv ssoOpts
    { UID := "u1", RefreshToken := "r1", LocalID := 3, Payload := "enc..." }
    { AccessToken := "a2", RefreshToken := "r2" } { ID := "user-9" } "pw"
    [.getKeyCall [1, 2], .decryptCall "enc..." 1]
    (by decide) rfl rfl rfl rfl

theorem consumeFork_secure_no_decrypt_witness :
    (∀ ev ∈ (consumeFork sampleEnv
        { apiUrl := none, payload := .secure "st" "sel" "pw0" }).2,
      ev.isCryptoCall = false) ∧
    (consumeFork sampleEnv
        { apiUrl := none, payload := .secure "st" "sel" "pw0" }).1 =
      .ok { AccessToken := "a2", keyPassword := "pw0", LocalID := 3,
            RefreshToken := "r2", UID := "u1", UserID := "user-9" } :=
  ⟨(consumeFork_secure_no_decrypt sampleEnv none "st" "sel" "pw0"
      (by decide) (by decide)).1,
    (consumeFork_secure_no_decrypt sampleEnv none "st" "sel" "pw0"
      (by decide) (by decide)).2
      { UID := "u1", RefreshToken := "r1", LocalID := 3, Payload := "enc..." }
      { AccessToken := "a2", RefreshToken := "r2" } { ID := "user-9" } rfl rfl rfl⟩

/-! ## URL query-string model (`URLSearchParams`)

Serialization and parsing of `application/x-www-form-urlencoded` query
strings, on `List Char`. -/

/-- Characters kept verbatim by form-urlencoding: ASCII alphanumerics
and `*-._`. -/
def safeChar (c : Char) : Bool :=
  c.isAlphanum || c == '*' || c == '-' || c == '.' || c == '_'

/-- Uppercase hexadecimal digit. -/
def hexDigit (n : Nat) : Char :=
  if n < 10 then Char.ofNat (48 + n) else Char.ofNat (55 + n)

/-- Value of a hexadecimal digit character. -/
def hexVal (c : Char) : Option Nat :=
  if '0' ≤ c ∧ c ≤ '9' then some (c.toNat - 48)
  else if 'A' ≤ c ∧ c ≤ 'F' then some (c.toNat - 55)
  else if 'a' ≤ c ∧ c ≤ 'f' then some (c.toNat - 87)
  else none

/-- Form-urlencoding of one character: safe characters verbatim, space
as `+`, anything else percent-encoded byte-wise from its UTF-8 bytes. -/
def formEncodeChar (c : Char) : List Char :=
  if safeChar c then [c]
  else if c = ' ' then ['+']
  else ((String.singleton c).toUTF8.toList.map
    (fun b => ['%', hexDigit (b.toNat / 16), hexDigit (b.toNat % 16)])).flatten

/-- Form-urlencoding of a string (as a character list). -/
def formEncodeChars (l : List Char) : List Char :=
  (l.map formEncodeChar).flatten

/-- Form-urldecoding, structurally recursive on a fuel bounded below by
the input length (each step consumes at least one character, so the fuel
never runs out on the actual input). -/
def formDecodeCharsAux : Nat → List Char → List Char
  | _, [] => []
  | 0, l => l
  | fuel + 1, c :: rest =>
    if c = '+' then ' ' :: formDecodeCharsAux fuel rest
    else if c = '%' then
      match rest with
      | c1 :: c2 :: rest2 =>
        match hexVal c1, hexVal c2 with
        | some h1, some h2 => Char.ofNat (16 * h1 + h2) :: formDecodeCharsAux fuel rest2
        | _, _ => '%' :: formDecodeCharsAux fuel rest
      | _ => c :: formDecodeCharsAux fuel rest
    else c :: formDecodeCharsAux fuel rest

/-- Form-urldecoding: `+` back to space, valid `%XX` back to the byte,
malformed escapes left in place. -/
def formDecodeChars (l : List Char) : List Char :=
  formDecodeCharsAux l.length l

/-- Split on `&`. -/
def splitAmp : List Char → List (List Char)
  | [] => [[]]
  | c :: rest =>
    if c = '&' then [] :: splitAmp rest
    else
      match splitAmp rest with
      | [] => [[c]]
      | p :: ps => (c :: p) :: ps

/-- Split at the first `=` (absent `=` leaves the value empty). -/
def splitEqFirst : List Char → List Char × List Char
  | [] => ([], [])
  | c :: rest =>
    if c = '=' then ([], rest)
    else
      let (k, v) := splitEqFirst rest
      (c :: k, v)

/-- `URLSearchParams` parsing: split on `&`, drop empty segments, split
each at the first `=`, decode keys and values. -/
def parseQueryChars (q : List Char) : List (List Char × List Char) :=
  ((splitAmp q).filter (· ≠ [])).map fun piece =>
    let (k, v) := splitEqFirst piece
    (formDecodeChars k, formDecodeChars v)

/-- `URLSearchParams.get`: first value stored under the name. -/
def getParamChars (name : List Char) (q : List Char) : Option (List Char) :=
  (parseQueryChars q).lookup name

/-- One serialized `key=value` pair. -/
def encodePairChars (p : List Char × List Char) : List Char :=
  formEncodeChars p.1 ++ '=' :: formEncodeChars p.2

/-- `URLSearchParams.toString`: `key=value` pairs joined by `&`. -/
def serializeQueryChars : List (List Char × List Char) → List Char
  | [] => []
  | [p] => encodePairChars p
  | p :: rest => encodePairChars p ++ '&' :: serializeQueryChars rest

/-- `URLSearchParams.get` on whole strings. -/
def getQueryParam (name q : String) : Option String :=
  (getParamChars name.data q.data).map fun l => ⟨l⟩

/-! ## Base64 (URL-safe, unpadded) and decimal rendering -/

/-- URL-safe base64 alphabet (`A-Z`, `a-z`, `0-9`, `-`, `_`). -/
def b64Char (n : Nat) : Char :=
  if n < 26 then Char.ofNat (65 + n)
  else if n < 52 then Char.ofNat (97 + (n - 26))
  else if n < 62 then Char.ofNat (48 + (n - 52))
  else if n = 62 then '-'
  else '_'

/-- Modelled from the spec: the composition
`encodeBase64URL(uint8ArrayToString(bytes))` of the external encoding
helpers — URL-safe base64 of a byte sequence, without padding. -/
def base64urlEncode : List Nat → List Char
  | [] => []
  | [b1] => [b64Char (b1 / 4), b64Char (b1 % 4 * 16)]
  | [b1, b2] => [b64Char (b1 / 4), b64Char (b1 % 4 * 16 + b2 / 16), b64Char (b2 % 16 * 4)]
  | b1 :: b2 :: b3 :: rest =>
    b64Char (b1 / 4) :: b64Char (b1 % 4 * 16 + b2 / 16) ::
      b64Char (b2 % 16 * 4 + b3 / 64) :: b64Char (b3 % 64) :: base64urlEncode rest

/-- Decimal digit character. -/
def decDigitChar (d : Nat) : Char := Char.ofNat (48 + d % 10)

/-- Decimal rendering of a natural number (the template interpolation
of `localID` into the query). -/
def natToChars (n : Nat) : List Char :=
  if _h : n < 10 then [decDigitChar n]
  else natToChars (n / 10) ++ [decDigitChar (n % 10)]
decreasing_by exact Nat.div_lt_self (by omega) (by omega)

/-! ## `requestFork` -/

/-- Modelled from the spec: the target app identifiers (`APP_NAMES`). -/
inductive AppName where
  | protonMail
  | protonCalendar
  | protonDrive
  | protonPass
  | protonVPNSettings
  | protonAccount
deriving DecidableEq, Repr

/-- The app identifier literal. -/
def AppName.literal : AppName → String
  | .protonMail => "proton-mail"
  | .protonCalendar => "proton-calendar"
  | .protonDrive => "proton-drive"
  | .protonPass => "proton-pass"
  | .protonVPNSettings => "proton-vpn-settings"
  | .protonAccount => "proton-account"

/-- Modelled from the spec: fork subtype literals (`FORK_TYPE`). -/
inductive ForkType where
  | switchSession
  | signup
deriving DecidableEq, Repr

/-- The fork subtype literal. -/
def ForkType.literal : ForkType → String
  | .switchSession => "switch"
  | .signup => "signup"

/-- Modelled from the spec: the identity provider canonical origin, the
default `host` (`getAppHref('/', APPS.PROTONACCOUNT)`). -/
def accountHost : String := "https://account.proton.me"

/-- Modelled from the spec: the fixed authorize path
(`SSO_PATHS.AUTHORIZE`). -/
def ssoAuthorizePath : String := "/authorize"

/-- `RequestForkOptions`. -/
structure RequestForkOptions where
  app : AppName
  host : Option String := none
  localID : Option Nat := none
  type : Option ForkType := none

/-- `RequestForkResult`. -/
structure RequestForkResult where
  state : String
  url : String
deriving DecidableEq, Repr

/-- The search-parameter list appended by `requestFork`: `app`, `state`,
`independent=0` always, then `u` if `localID` is provided and `t` if
`type` is provided (a `ForkType` literal is never the empty string, so
JS truthiness coincides with presence). -/
def requestForkParams (state : String) (opts : RequestForkOptions) :
    List (List Char × List Char) :=
  [("app".data, opts.app.literal.data),
   ("state".data, state.data),
   ("independent".data, "0".data)]
  ++ (match opts.localID with
      | some n => [("u".data, natToChars n)]
      | none => [])
  ++ (match opts.type with
      | some t => [("t".data, t.literal.data)]
      | none => [])

/-- The serialized query string of `requestFork`. -/
def requestForkQuery (state : String) (opts : RequestForkOptions) : String :=
  ⟨serializeQueryChars (requestForkParams state opts)⟩

/-- `requestFork`: a random `state` (URL-safe base64 of 32 random
bytes, supplied here as the explicit `randomBytes` input) and the
redirect `url` built from the host (defaulting to the account origin),
the authorize path and the query parameters. -/
def requestFork (randomBytes : List Nat) (opts : RequestForkOptions) :
    RequestForkResult :=
  let state : String := ⟨base64urlEncode randomBytes⟩
  { state := state
    url := (opts.host.getD accountHost) ++ ssoAuthorizePath ++ "?" ++
      requestForkQuery state opts }

/-! ## Round-trip lemmas for the query-string model -/

theorem ne_of_safe {c d : Char} (h : safeChar c = true)
    (hd : safeChar d = false) : c ≠ d := by
  intro he
  rw [he, hd] at h
  exact Bool.noConfusion h

theorem formEncodeChars_id (l : List Char) (h : ∀ c ∈ l, safeChar c = true) :
    formEncodeChars l = l := by
  induction l with
  | nil => rfl
  | cons c rest ih =>
    have hc := h c (List.mem_cons_self c rest)
    have ih' := ih fun x hx => h x (List.mem_cons_of_mem _ hx)
    simp only [formEncodeChars, List.map_cons, List.flatten_cons] at ih' ⊢
    rw [formEncodeChar, if_pos hc, ih']
    rfl

theorem formDecodeChars_nil : formDecodeChars [] = [] := rfl

theorem formDecodeCharsAux_cons_safe (fuel : Nat) (c : Char) (rest : List Char)
    (h1 : c ≠ '+') (h2 : c ≠ '%') :
    formDecodeCharsAux (fuel + 1) (c :: rest) =
      c :: formDecodeCharsAux fuel rest := by
  cases rest with
  | nil => simp [formDecodeCharsAux, h1, h2]
  | cons c1 rest1 =>
    cases rest1 with
    | nil => simp [formDecodeCharsAux, h1, h2]
    | cons c2 rest2 => simp [formDecodeCharsAux, h1, h2]

theorem formDecodeChars_cons_safe (c : Char) (rest : List Char)
    (h1 : c ≠ '+') (h2 : c ≠ '%') :
    formDecodeChars (c :: rest) = c :: formDecodeChars rest := by
  rw [formDecodeChars, formDecodeChars, List.length_cons]
  exact formDecodeCharsAux_cons_safe rest.length c rest h1 h2

theorem formDecodeChars_id (l : List Char) (h : ∀ c ∈ l, safeChar c = true) :
    formDecodeChars l = l := by
  induction l with
  | nil => exact formDecodeChars_nil
  | cons c rest ih =>
    have hc := h c (List.mem_cons_self c rest)
    have h1 : c ≠ '+' := ne_of_safe hc (by decide)
    have h2 : c ≠ '%' := ne_of_safe hc (by decide)
    rw [formDecodeChars_cons_safe c rest h1 h2,
      ih fun x hx => h x (List.mem_cons_of_mem _ hx)]

theorem splitAmp_no_amp (l : List Char) (h : '&' ∉ l) : splitAmp l = [l] := by
  induction l with
  | nil => rfl
  | cons c rest ih =>
    have hc : c ≠ '&' := fun he => h (he ▸ List.mem_cons_self c rest)
    rw [splitAmp, if_neg hc, ih fun hx => h (List.mem_cons_of_mem _ hx)]

theorem splitAmp_append (l1 l2 : List Char) (h : '&' ∉ l1) :
    splitAmp (l1 ++ '&' :: l2) = l1 :: splitAmp l2 := by
  induction l1 with
  | nil => simp [splitAmp]
  | cons c rest ih =>
    have hc : c ≠ '&' := fun he => h (he ▸ List.mem_cons_self c rest)
    rw [List.cons_append, splitAmp, if_neg hc,
      ih fun hx => h (List.mem_cons_of_mem _ hx)]

theorem splitEqFirst_append (k v : List Char) (h : '=' ∉ k) :
    splitEqFirst (k ++ '=' :: v) = (k, v) := by
  induction k with
  | nil => simp [splitEqFirst]
  | cons c rest ih =>
    have hc : c ≠ '=' := fun he => h (he ▸ List.mem_cons_self c rest)
    rw [List.cons_append, splitEqFirst, if_neg hc,
      ih fun hx => h (List.mem_cons_of_mem _ hx)]

theorem encodePairChars_eq (p : List Char × List Char)
    (hk : ∀ c ∈ p.1, safeChar c = true) (hv : ∀ c ∈ p.2, safeChar c = true) :
    encodePairChars p = p.1 ++ '=' :: p.2 := by
  rw [encodePairChars, formEncodeChars_id _ hk, formEncodeChars_id _ hv]

theorem amp_not_mem_encodePair (p : List Char × List Char)
    (hk : ∀ c ∈ p.1, safeChar c = true) (hv : ∀ c ∈ p.2, safeChar c = true) :
    '&' ∉ encodePairChars p := by
  rw [encodePairChars_eq p hk hv]
  intro hm
  rcases List.mem_append.mp hm with hm | hm
  · exact ne_of_safe (hk _ hm) (by decide) rfl
  · rcases List.mem_cons.mp hm with hm | hm
    · exact absurd hm (by decide)
    · exact ne_of_safe (hv _ hm) (by decide) rfl

theorem parseQueryChars_serialize (ps : List (List Char × List Char))
    (h : ∀ p ∈ ps, (∀ c ∈ p.1, safeChar c = true) ∧ (∀ c ∈ p.2, safeChar c = true)) :
    parseQueryChars (serializeQueryChars ps) = ps := by
  induction ps with
  | nil => rfl
  | cons p rest ih =>
    obtain ⟨hk, hv⟩ := h p (List.mem_cons_self p rest)
    have hamp := amp_not_mem_encodePair p hk hv
    have heq : '=' ∉ p.1 := fun hm => ne_of_safe (hk _ hm) (by decide) rfl
    have hne : encodePairChars p ≠ [] := by
      rw [encodePairChars_eq p hk hv]
      cases hp1 : p.1 <;> simp
    cases rest with
    | nil =>
      show parseQueryChars (serializeQueryChars [p]) = [p]
      rw [serializeQueryChars, parseQueryChars, splitAmp_no_amp _ hamp]
      rw [List.filter_cons_of_pos (by simpa using hne), List.filter_nil,
        List.map_cons, List.map_nil]
      rw [encodePairChars_eq p hk hv, splitEqFirst_append p.1 p.2 heq]
      simp only [formDecodeChars_id _ hk, formDecodeChars_id _ hv]
    | cons q rest2 =>
      have ih' := ih fun x hx => h x (List.mem_cons_of_mem _ hx)
      rw [show serializeQueryChars (p :: q :: rest2) =
        encodePairChars p ++ '&' :: serializeQueryChars (q :: rest2) from rfl]
      rw [parseQueryChars, splitAmp_append _ _ hamp,
        List.filter_cons_of_pos (by simpa using hne), List.map_cons]
      rw [encodePairChars_eq p hk hv, splitEqFirst_append p.1 p.2 heq]
      rw [parseQueryChars] at ih'
      rw [ih']
      simp only [formDecodeChars_id _ hk, formDecodeChars_id _ hv]

theorem getParamChars_serialize (name : List Char)
    (ps : List (List Char × List Char))
    (h : ∀ p ∈ ps, (∀ c ∈ p.1, safeChar c = true) ∧ (∀ c ∈ p.2, safeChar c = true)) :
    getParamChars name (serializeQueryChars ps) = ps.lookup name := by
  rw [getParamChars, parseQueryChars_serialize ps h]

/-! ## Safety and length of the base64url encoding -/

theorem b64Char_safe (n : Nat) : safeChar (b64Char n) = true := by
  by_cases h : n < 64
  · have hb : ∀ m, m < 64 → safeChar (b64Char m) = true := by decide
    exact hb n h
  · rw [b64Char, if_neg (by omega), if_neg (by omega), if_neg (by omega),
      if_neg (by omega)]
    decide

theorem base64urlEncode_safe (l : List Nat) :
    ∀ c ∈ base64urlEncode l, safeChar c = true := by
  induction l using base64urlEncode.induct with
  | case1 => intro c hc; exact absurd hc (by simp [base64urlEncode])
  | case2 b1 =>
    intro c hc
    rcases (by simpa [base64urlEncode] using hc : c = _ ∨ c = _) with rfl | rfl <;>
      exact b64Char_safe _
  | case3 b1 b2 =>
    intro c hc
    rcases (by simpa [base64urlEncode] using hc : c = _ ∨ c = _ ∨ c = _) with
      rfl | rfl | rfl <;> exact b64Char_safe _
  | case4 b1 b2 b3 rest ih =>
    intro c hc
    rcases (by simpa [base64urlEncode] using hc :
        c = _ ∨ c = _ ∨ c = _ ∨ c = _ ∨ c ∈ base64urlEncode rest) with
      rfl | rfl | rfl | rfl | hm
    · exact b64Char_safe _
    · exact b64Char_safe _
    · exact b64Char_safe _
    · exact b64Char_safe _
    · exact ih c hm

theorem base64urlEncode_length (l : List Nat) :
    (base64urlEncode l).length =
      4 * (l.length / 3) + (if l.length % 3 = 0 then 0 else l.length % 3 + 1) := by
  induction l using base64urlEncode.induct with
  | case1 => rfl
  | case2 b1 => simp [base64urlEncode]
  | case3 b1 b2 => simp [base64urlEncode]
  | case4 b1 b2 b3 rest ih =>
    show (base64urlEncode (b1 :: b2 :: b3 :: rest)).length = _
    rw [base64urlEncode]
    simp only [List.length_cons]
    rw [ih]
    have h3 : (rest.length + 1 + 1 + 1) / 3 = rest.length / 3 + 1 := by omega
    have h4 : (rest.length + 1 + 1 + 1) % 3 = rest.length % 3 := by omega
    rw [h3, h4]
    omega

theorem natToChars_safe (n : Nat) : ∀ c ∈ natToChars n, safeChar c = true := by
  induction n using natToChars.induct with
  | case1 n h =>
    intro c hc
    have : c = decDigitChar n := by simpa [natToChars, h] using hc
    rw [this, decDigitChar]
    have hd : ∀ m, m < 10 → safeChar (Char.ofNat (48 + m)) = true := by decide
    exact hd _ (Nat.mod_lt _ (by omega))
  | case2 n h ih =>
    intro c hc
    rw [natToChars, dif_neg h] at hc
    rcases List.mem_append.mp hc with hm | hm
    · exact ih c hm
    · have : c = decDigitChar (n % 10) := by simpa using hm
      rw [this, decDigitChar]
      have hd : ∀ m, m < 10 → safeChar (Char.ofNat (48 + m)) = true := by decide
      exact hd _ (Nat.mod_lt _ (by omega))

theorem safe_app_literal (a : AppName) : ∀ c ∈ a.literal.data, safeChar c = true := by
  cases a <;> decide

theorem safe_type_literal (t : ForkType) : ∀ c ∈ t.literal.data, safeChar c = true := by
  cases t <;> decide

theorem safe_key_app : ∀ c ∈ "app".data, safeChar c = true := by decide

theorem safe_key_state : ∀ c ∈ "state".data, safeChar c = true := by decide

theorem safe_key_indep : ∀ c ∈ "independent".data, safeChar c = true := by decide

theorem safe_key_u : ∀ c ∈ "u".data, safeChar c = true := by decide

theorem safe_key_t : ∀ c ∈ "t".data, safeChar c = true := by decide

theorem safe_val_zero : ∀ c ∈ "0".data, safeChar c = true := by decide

theorem requestForkParams_safe (randomBytes : List Nat)
    (opts : RequestForkOptions) :
    ∀ p ∈ requestForkParams ⟨base64urlEncode randomBytes⟩ opts,
      (∀ c ∈ p.1, safeChar c = true) ∧ (∀ c ∈ p.2, safeChar c = true) := by
  intro p hp
  rcases hL : opts.localID with _ | n <;> rcases hT : opts.type with _ | t <;>
    rw [requestForkParams, hL, hT] at hp
  · simp only [List.append_nil, List.mem_cons, List.not_mem_nil, or_false] at hp
    rcases hp with rfl | rfl | rfl
    · exact ⟨safe_key_app, safe_app_literal opts.app⟩
    · exact ⟨safe_key_state, base64urlEncode_safe randomBytes⟩
    · exact ⟨safe_key_indep, safe_val_zero⟩
  · simp only [List.nil_append, List.append_nil, List.mem_append, List.mem_cons,
      List.not_mem_nil, or_false] at hp
    rcases hp with (rfl | rfl | rfl) | rfl
    · exact ⟨safe_key_app, safe_app_literal opts.app⟩
    · exact ⟨safe_key_state, base64urlEncode_safe randomBytes⟩
    · exact ⟨safe_key_indep, safe_val_zero⟩
    · exact ⟨safe_key_t, safe_type_literal t⟩
  · simp only [List.append_nil, List.mem_append, List.mem_cons,
      List.not_mem_nil, or_false] at hp
    rcases hp with (rfl | rfl | rfl) | rfl
    · exact ⟨safe_key_app, safe_app_literal opts.app⟩
    · exact ⟨safe_key_state, base64urlEncode_safe randomBytes⟩
    · exact ⟨safe_key_indep, safe_val_zero⟩
    · exact ⟨safe_key_u, natToChars_safe n⟩
  · simp only [List.mem_append, List.mem_cons, List.not_mem_nil, or_false] at hp
    rcases hp with ((rfl | rfl | rfl) | rfl) | rfl
    · exact ⟨safe_key_app, safe_app_literal opts.app⟩
    · exact ⟨safe_key_state, base64urlEncode_safe randomBytes⟩
    · exact ⟨safe_key_indep, safe_val_zero⟩
    · exact ⟨safe_key_u, natToChars_safe n⟩
    · exact ⟨safe_key_t, safe_type_literal t⟩

/-- C6: `requestFork` returns a `state` that is the unpadded URL-safe
base64 encoding of the 32 random bytes (43 characters, all in the safe
alphabet, hence no padding and no unsafe characters), and a `url` equal
to the host (defaulting to the account origin) plus the fixed authorize
path plus a query string whose parsed parameters round-trip to the same
`app`, `state`, always `independent=0`, `u` exactly when `localID` is
provided and `t` exactly when `type` is provided. -/
theorem requestFork_spec (randomBytes : List Nat) (opts : RequestForkOptions)
    (hlen : randomBytes.length = 32) (_hbytes : ∀ b ∈ randomBytes, b < 256) :
    (requestFork randomBytes opts).state.data = base64urlEncode randomBytes ∧
    (requestFork randomBytes opts).state.length = 43 ∧
    (∀ c ∈ (requestFork randomBytes opts).state.data, safeChar c = true) ∧
    '=' ∉ (requestFork randomBytes opts).state.data ∧
    (requestFork randomBytes opts).url =
      (opts.host.getD accountHost) ++ ssoAuthorizePath ++ "?" ++
        requestForkQuery (requestFork randomBytes opts).state opts ∧
    getQueryParam "app" (requestForkQuery (requestFork randomBytes opts).state opts) =
      some opts.app.literal ∧
    getQueryParam "state" (requestForkQuery (requestFork randomBytes opts).state opts) =
      some (requestFork randomBytes opts).state ∧
    getQueryParam "independent" (requestForkQuery (requestFork randomBytes opts).state opts) =
      some "0" ∧
    getQueryParam "u" (requestForkQuery (requestFork randomBytes opts).state opts) =
      opts.localID.map (fun n => (⟨natToChars n⟩ : String)) ∧
    getQueryParam "t" (requestForkQuery (requestFork randomBytes opts).state opts) =
      opts.type.map ForkType.literal := by
  have hstate : (requestFork randomBytes opts).state = ⟨base64urlEncode randomBytes⟩ := rfl
  have hsafe := requestForkParams_safe randomBytes opts
  have hlookup : ∀ name, getParamChars name
      (requestForkQuery ⟨base64urlEncode randomBytes⟩ opts).data =
      (requestForkParams ⟨base64urlEncode randomBytes⟩ opts).lookup name :=
    fun name => getParamChars_serialize name _ hsafe
  refine ⟨rfl, ?_, ?_, ?_, rfl, ?_, ?_, ?_, ?_, ?_⟩
  · show (base64urlEncode randomBytes).length = 43
    rw [base64urlEncode_length, hlen]
    decide
  · exact base64urlEncode_safe randomBytes
  · intro hm
    exact ne_of_safe (base64urlEncode_safe randomBytes _ hm) (by decide) rfl
  all_goals
    rw [hstate, getQueryParam, hlookup]
    rcases hL : opts.localID with _ | n <;> rcases hT : opts.type with _ | t <;>
      simp +decide [requestForkParams, hL, hT, List.lookup]

/-- A concrete 32-byte random input for the witness. -/
def witnessBytes : List Nat :=
  [0, 1, 2, 3, 4, 5, 6, 7, 8, 9, 10, 11, 12, 13, 14, 15,
   16, 17, 18, 19, 20, 21, 22, 23, 24, 25, 26, 27, 28, 29, 30, 31]

/-- A concrete `requestFork` input for the witness. -/
def witnessForkOpts : RequestForkOptions :=
  { app := .protonPass, host := none, localID := some 42,
    type := some .switchSession }

theorem requestFork_spec_witness :
    (requestFork witnessBytes witnessForkOpts).state.data =
        base64urlEncode witnessBytes ∧
    (requestFork witnessBytes witnessForkOpts).state.length = 43 ∧
    (∀ c ∈ (requestFork witnessBytes witnessForkOpts).state.data, safeChar c = true) ∧
    '=' ∉ (requestFork witnessBytes witnessForkOpts).state.data ∧
    (requestFork witnessBytes witnessForkOpts).url =
      (witnessForkOpts.host.getD accountHost) ++ ssoAuthorizePath ++ "?" ++
        requestForkQuery (requestFork witnessBytes witnessForkOpts).state witnessForkOpts ∧
    getQueryParam "app"
        (requestForkQuery (requestFork witnessBytes witnessForkOpts).state witnessForkOpts) =
      some witnessForkOpts.app.literal ∧
    getQueryParam "state"
        (requestForkQuery (requestFork witnessBytes witnessForkOpts).state witnessForkOpts) =
      some (requestFork witnessBytes witnessForkOpts).state ∧
    getQueryParam "independent"
        (requestForkQuery (requestFork witnessBytes witnessForkOpts).state witnessForkOpts) =
      some "0" ∧
    getQueryParam "u"
        (requestForkQuery (requestFork witnessBytes witnessForkOpts).state witnessForkOpts) =
      witnessForkOpts.localID.map (fun n => (⟨natToChars n⟩ : String)) ∧
    getQueryParam "t"
        (requestForkQuery (requestFork witnessBytes witnessForkOpts).state witnessForkOpts) =
      witnessForkOpts.type.map ForkType.literal :=
  requestFork_spec witnessBytes witnessForkOpts (by decide) (by decide)

/-! ## `getConsumeForkParameters` -/

/-- The substring of the location hash after its last `#`
(`hash.slice(hash.lastIndexOf('#') + 1)`; with no `#` present,
`lastIndexOf` is `-1` and the whole string is kept). -/
def sliceAfterLastHash (l : List Char) : List Char :=
  (l.reverse.takeWhile (· != '#')).reverse

/-- The record returned by `getConsumeForkParameters`. -/
structure ConsumeForkParams where
  state : String
  selector : String
  key : Option (List Nat)
  type : Option ForkType
  persistent : Bool
  trusted : Bool
  version : Nat
deriving DecidableEq, Repr

/-- `getConsumeForkParameters`: parse the fragment after the last `#`
with `URLSearchParams`, defaulting each parameter to the empty string,
truncating `state` to 100 characters, validating the raw key (only when
the `sk` parameter is non-empty) and the fork type through the injected
external validators, and decoding the `p`/`tr`/`v` literals. -/
def getConsumeForkParameters (getValidatedRawKey : String → Option (List Nat))
    (getValidatedForkType : String → Option ForkType)
    (locationHash : String) : ConsumeForkParams :=
  let frag := sliceAfterLastHash locationHash.data
  let selector := (getParamChars "selector".data frag).getD []
  let state := (getParamChars "state".data frag).getD []
  let base64StringKey := (getParamChars "sk".data frag).getD []
  let ty := (getParamChars "t".data frag).getD []
  let persistent := (getParamChars "p".data frag).getD []
  let trusted := (getParamChars "tr".data frag).getD []
  let version := (getParamChars "v".data frag).getD []
  { state := ⟨state.take 100⟩
    selector := ⟨selector⟩
    key := if base64StringKey.length ≠ 0 then getValidatedRawKey ⟨base64StringKey⟩ else none
    type := getValidatedForkType ⟨ty⟩
    persistent := persistent == "1".data
    trusted := trusted == "1".data
    version := if version == "2".data then 2 else 1 }

/-- C7: the returned `state` is the raw `state` parameter truncated to
its first 100 characters (exactly 100 characters when the raw value is
at least that long), and `selector` and `state` each default to the
empty string when the parameter is absent. -/
theorem getConsumeForkParameters_state_truncation
    (V : String → Option (List Nat)) (W : String → Option ForkType)
    (hash : String) :
    (getConsumeForkParameters V W hash).state =
      ⟨((getParamChars "state".data (sliceAfterLastHash hash.data)).getD []).take 100⟩ ∧
    (getParamChars "state".data (sliceAfterLastHash hash.data) = none →
      (getConsumeForkParameters V W hash).state = "") ∧
    (getParamChars "selector".data (sliceAfterLastHash hash.data) = none →
      (getConsumeForkParameters V W hash).selector = "") ∧
    (100 ≤ ((getParamChars "state".data (sliceAfterLastHash hash.data)).getD []).length →
      (getConsumeForkParameters V W hash).state.length = 100) := by
  refine ⟨rfl, ?_, ?_, ?_⟩
  · intro h
    show (⟨((getParamChars "state".data (sliceAfterLastHash hash.data)).getD []).take 100⟩ : String) = ""
    rw [h]
    rfl
  · intro h
    show (⟨(getParamChars "selector".data (sliceAfterLastHash hash.data)).getD []⟩ : String) = ""
    rw [h]
    rfl
  · intro h
    show (⟨((getParamChars "state".data (sliceAfterLastHash hash.data)).getD []).take 100⟩ : String).length = 100
    show (((getParamChars "state".data (sliceAfterLastHash hash.data)).getD []).take 100).length = 100
    rw [List.length_take]
    omega

/-- Validator used by the closed witnesses: rejects every raw key. -/
def trivialRawKeyValidator : String → Option (List Nat) := fun _ => none

/-- Validator used by the closed witnesses: maps every literal to no
fork type. -/
def trivialForkTypeValidator : String → Option ForkType := fun _ => none

/-- A fragment whose `state` parameter is 120 characters long and which
carries no `selector` parameter. -/
def longStateHash : String := "#state=" ++ ⟨List.replicate 120 'a'⟩

set_option maxRecDepth 20000 in
theorem getConsumeForkParameters_state_truncation_witness :
    (getConsumeForkParameters trivialRawKeyValidator trivialForkTypeValidator
        longStateHash).state =
      ⟨((getParamChars "state".data (sliceAfterLastHash longStateHash.data)).getD []).take 100⟩ ∧
    (getConsumeForkParameters trivialRawKeyValidator trivialForkTypeValidator
        longStateHash).selector = "" ∧
    (getConsumeForkParameters trivialRawKeyValidator trivialForkTypeValidator
        longStateHash).state.length = 100 :=
  ⟨(getConsumeForkParameters_state_truncation trivialRawKeyValidator
      trivialForkTypeValidator longStateHash).1,
   (getConsumeForkParameters_state_truncation trivialRawKeyValidator
      trivialForkTypeValidator longStateHash).2.2.1 (by decide),
   (getConsumeForkParameters_state_truncation trivialRawKeyValidator
      trivialForkTypeValidator longStateHash).2.2.2 (by decide)⟩

theorem takeWhile_all_of_pred {p : Char → Bool} (l : List Char)
    (h : ∀ c ∈ l, p c = true) : l.takeWhile p = l := by
  induction l with
  | nil => rfl
  | cons c rest ih =>
    rw [List.takeWhile_cons, if_pos (h c (List.mem_cons_self c rest)),
      ih fun x hx => h x (List.mem_cons_of_mem _ hx)]

theorem takeWhile_append_of_pred {p : Char → Bool} (l1 l2 : List Char) (x : Char)
    (h : ∀ c ∈ l1, p c = true) (hx : p x = false) :
    (l1 ++ x :: l2).takeWhile p = l1 := by
  induction l1 with
  | nil => simp [List.takeWhile_cons, hx]
  | cons c rest ih =>
    rw [List.cons_append, List.takeWhile_cons,
      if_pos (h c (List.mem_cons_self c rest)),
      ih fun y hy => h y (List.mem_cons_of_mem _ hy)]

theorem sliceAfterLastHash_no_hash (l : List Char) (h : '#' ∉ l) :
    sliceAfterLastHash l = l := by
  rw [sliceAfterLastHash, takeWhile_all_of_pred, List.reverse_reverse]
  intro c hc
  have : c ≠ '#' := fun he => h (he ▸ List.mem_reverse.mp hc)
  simpa using this

theorem sliceAfterLastHash_append (p s : List Char) (h : '#' ∉ s) :
    sliceAfterLastHash (p ++ '#' :: s) = s := by
  rw [sliceAfterLastHash, List.reverse_append, List.reverse_cons,
    List.append_assoc, List.singleton_append]
  rw [takeWhile_append_of_pred s.reverse p.reverse '#'
    (fun c hc => by
      have : c ≠ '#' := fun he => h (he ▸ List.mem_reverse.mp hc)
      simpa using this)
    (by decide), List.reverse_reverse]

theorem getConsumeForkParameters_congr
    (V : String → Option (List Nat)) (W : String → Option ForkType)
    (h1 h2 : String)
    (h : sliceAfterLastHash h1.data = sliceAfterLastHash h2.data) :
    getConsumeForkParameters V W h1 = getConsumeForkParameters V W h2 := by
  unfold getConsumeForkParameters
  rw [h]

/-- C8: the fork parameters are parsed from the substring after the
last `#` of the location hash: appending `prefixPart ++ "#"` in front of
a hash-free parameter string parses exactly that parameter string, for
every choice of `prefixPart` (in particular one containing further `#`
characters). -/
theorem getConsumeForkParameters_last_hash
    (V : String → Option (List Nat)) (W : String → Option ForkType)
    (prefixPart s : String) (h : '#' ∉ s.data) :
    getConsumeForkParameters V W (prefixPart ++ "#" ++ s) =
      getConsumeForkParameters V W s := by
  apply getConsumeForkParameters_congr
  have hdata : (prefixPart ++ "#" ++ s).data = prefixPart.data ++ '#' :: s.data := by
    rw [String.data_append, String.data_append, List.append_assoc]
    rfl
  rw [hdata, sliceAfterLastHash_append prefixPart.data s.data h,
    sliceAfterLastHash_no_hash s.data h]

theorem getConsumeForkParameters_last_hash_witness :
    getConsumeForkParameters trivialRawKeyValidator trivialForkTypeValidator
        ("#outer#inner" ++ "#" ++ "selector=abc&state=s1") =
      getConsumeForkParameters trivialRawKeyValidator trivialForkTypeValidator
        "selector=abc&state=s1" :=
  getConsumeForkParameters_last_hash trivialRawKeyValidator
    trivialForkTypeValidator "#outer#inner" "selector=abc&state=s1" (by decide)

end SessionFork

namespace PassCache

/-!
Shallow embedding of the encrypted local-cache saga (`cacheWorker`):
after the debounce wait, if an authenticated session exists, derive a
cache encryption key from a fresh random salt and the optional
session-lock token, encrypt the serialized store state and the crypto
worker snapshot, and persist `salt`, `state` and `snapshot` to browser
local storage — the whole body inside a `try { ... } catch (_) {}`.
-/

/-- The encryption tag passed to `encryptData` (`EncryptionTag.Cache`). -/
inductive EncryptionTag where
  | Cache
deriving DecidableEq, Repr

/-- One storage write performed by the saga. -/
inductive CacheEvent where
  | setItem (key value : String)
deriving DecidableEq, Repr

/-- The storage key written by the event. -/
def CacheEvent.storageKey : CacheEvent → String
  | .setItem k _ => k

/-- `TextEncoder().encode` / `stringToUint8Array`: string to bytes
(shallow code-point model). -/
def stringToUint8Array (s : String) : List Nat := s.data.map Char.toNat

/-- `uint8ArrayToString`: bytes to a binary string. -/
def uint8ArrayToString (l : List Nat) : String :=
  ⟨l.map fun b => Char.ofNat (b % 256)⟩

/-- Collaborators and ambient state of one `cacheWorker` run: the
authentication flag, the selected session-lock token, the freshly drawn
random salt, the two serialized blobs (store state after
`asIfNotOptimistic` and `objectDelete 'request'`, and the
`PassCrypto.serialize()` snapshot), and the fallible crypto and storage
primitives; `κ` is the abstract `CryptoKey` type and `ε` the error
type. -/
structure CacheEnv (ε κ : Type) where
  hasSession : Bool
  sessionLockToken : Option String
  cacheSalt : List Nat
  getCacheEncryptionKey : List Nat → Option String → Except ε κ
  stateBlob : String
  snapshotBlob : String
  encryptData : κ → List Nat → EncryptionTag → Except ε (List Nat)
  setItem : String → String → Except ε Unit

/-- The `try`-block of `cacheWorker`: derive the key, encrypt the state
and the snapshot, then write `salt`, `state` and `snapshot` in order.
Returns the outcome together with the storage writes performed (a write
is recorded when attempted, before its own possible failure). -/
def cacheWorkerBody {ε κ : Type} (env : CacheEnv ε κ) :
    Except ε Unit × List CacheEvent :=
  match env.getCacheEncryptionKey env.cacheSalt env.sessionLockToken with
  | .error e => (.error e, [])
  | .ok key =>
    match env.encryptData key (stringToUint8Array env.stateBlob) .Cache with
    | .error e => (.error e, [])
    | .ok encryptedData =>
      match env.encryptData key (stringToUint8Array env.snapshotBlob) .Cache with
      | .error e => (.error e, [])
      | .ok encryptedWorkerSnapshot =>
        match env.setItem "salt" (uint8ArrayToString env.cacheSalt) with
        | .error e => (.error e,
            [.setItem "salt" (uint8ArrayToString env.cacheSalt)])
        | .ok _ =>
          match env.setItem "state" (uint8ArrayToString encryptedData) with
          | .error e => (.error e,
              [.setItem "salt" (uint8ArrayToString env.cacheSalt),
               .setItem "state" (uint8ArrayToString encryptedData)])
          | .ok _ =>
            match env.setItem "snapshot" (uint8ArrayToString encryptedWorkerSnapshot) with
            | .error e => (.error e,
                [.setItem "salt" (uint8ArrayToString env.cacheSalt),
                 .setItem "state" (uint8ArrayToString encryptedData),
                 .setItem "snapshot" (uint8ArrayToString encryptedWorkerSnapshot)])
            | .ok _ => (.ok (),
                [.setItem "salt" (uint8ArrayToString env.cacheSalt),
                 .setItem "state" (uint8ArrayToString encryptedData),
                 .setItem "snapshot" (uint8ArrayToString encryptedWorkerSnapshot)])

/-- `cacheWorker`: nothing happens without an authenticated session;
otherwise the body runs and any error it throws is swallowed by the
surrounding `catch (_) {}` — the caller observes only the performed
writes, never a failure. -/
def cacheWorker {ε κ : Type} (env : CacheEnv ε κ) : Except ε (List CacheEvent) :=
  if env.hasSession then
    match cacheWorkerBody env with
    | (.ok _, events) => .ok events
    | (.error _, events) => .ok events
  else .ok []

theorem cacheWorkerBody_keys {ε κ : Type} (env : CacheEnv ε κ) :
    ∀ ev ∈ (cacheWorkerBody env).2,
      ev.storageKey = "salt" ∨ ev.storageKey = "state" ∨
        ev.storageKey = "snapshot" := by
  unfold cacheWorkerBody
  repeat' split
  all_goals simp [List.forall_mem_cons, CacheEvent.storageKey]

/-- C10: `cacheWorker` never surfaces an error to its caller — for every
behaviour of the collaborators the result is `ok`, carrying only writes
to the `salt`, `state` and `snapshot` storage keys — and when no
authenticated session exists it performs no storage writes at all. -/
theorem cacheWorker_silent {ε κ : Type} (env : CacheEnv ε κ) :
    (∃ evs, cacheWorker env = .ok evs ∧
      ∀ ev ∈ evs, ev.storageKey = "salt" ∨ ev.storageKey = "state" ∨
        ev.storageKey = "snapshot") ∧
    (env.hasSession = false → cacheWorker env = .ok []) := by
  cases hs : env.hasSession with
  | false => exact ⟨⟨[], by simp [cacheWorker, hs], by simp⟩, fun _ => by simp [cacheWorker, hs]⟩
  | true =>
    rcases hb : cacheWorkerBody env with ⟨r, events⟩
    have hw : cacheWorker env = .ok events := by
      cases r <;> simp [cacheWorker, hs, hb]
    refine ⟨⟨events, hw, ?_⟩, fun h => by cases h⟩
    have := cacheWorkerBody_keys env
    rw [hb] at this
    exact this

/-- A concrete environment whose collaborators all throw and which has
no authenticated session. -/
def sampleCacheEnv : CacheEnv String Nat where
  hasSession := false
  sessionLockToken := none
  cacheSalt := [1, 2, 3, 4]
  getCacheEncryptionKey := fun _ _ => .error "derivation-failed"
  stateBlob := "{}"
  snapshotBlob := "{}"
  encryptData := fun _ _ _ => .error "encryption-failed"
  setItem := fun _ _ => .error "storage-failed"

theorem cacheWorker_silent_witness :
    (∃ evs, cacheWorker sampleCacheEnv = .ok evs ∧
      ∀ ev ∈ evs, ev.storageKey = "salt" ∨ ev.storageKey = "state" ∨
        ev.storageKey = "snapshot") ∧
    cacheWorker sampleCacheEnv = .ok [] :=
  ⟨(cacheWorker_silent sampleCacheEnv).1,
   (cacheWorker_silent sampleCacheEnv).2 rfl⟩

end PassCache
